import Mathlib

/-!
Verification development for an object-backed log-structured filesystem
(single source file `objfs.cc`).  The definitions below are a shallow
embedding of the C++ source: `std::map<int64_t, extent>` becomes a
key-sorted association list, machine integers become `Nat`/`Int` with
explicit `% 4294967296` where 32-bit wraparound can occur, and functions
that can fail return `Option`.
-/

/-- `struct extent` : a run of file bytes backed by bytes of one object.
Fields are `uint32_t` in the source. -/
structure extent where
  objnum : Nat
  offset : Nat
  len : Nat
deriving DecidableEq, Repr

/-- `internal_map` = `std::map<int64_t, extent>`, embedded as an association
list sorted strictly by key. -/
abbrev ExtMap := List (Int × extent)

/-- `the_map[k] = v` on a `std::map`: insert keeping the sort order,
replacing the entry at `k` when present. -/
def insertAssign : ExtMap → Int → extent → ExtMap
  | [], k, e => [(k, e)]
  | (k1, e1) :: rest, k, e =>
    if k < k1 then (k, e) :: (k1, e1) :: rest
    else if k = k1 then (k, e) :: rest
    else (k1, e1) :: insertAssign rest k e

/-- `the_map.erase(k)` on a `std::map`. -/
def eraseKeyE (m : ExtMap) (k : Int) : ExtMap :=
  m.filter (fun p => !(p.1 == k))

namespace extmap

/-- `extmap::lookup`, returning the iterator as the suffix of the map that
starts at the returned position (`[]` = `end()`).  Translated line by line:
take `lower_bound(offset)`; when that is `end()` the source returns `end()`
at once (without examining the predecessor); otherwise, when the found key
is `> offset` and a predecessor exists and contains `offset`, back up one. -/
def lookupIt (m : ExtMap) (off : Int) : List (Int × extent) :=
  match m.dropWhile (fun p => decide (p.1 < off)) with
  | [] => []
  | (k, e) :: post =>
    if k > off then
      match (m.takeWhile (fun p => decide (p.1 < off))).getLast? with
      | some (k0, e0) =>
        if off < k0 + (e0.len : Int) then (k0, e0) :: (k, e) :: post
        else (k, e) :: post
      | none => (k, e) :: post
    else (k, e) :: post

/-- `extmap::lookup` as the entry the returned iterator points at. -/
def lookup (m : ExtMap) (off : Int) : Option (Int × extent) :=
  (lookupIt m off).head?

/-- `extmap::update(offset, e)`.  Faithful translation of the source,
including the two fast paths and the early `return` that the source takes
when `lower_bound(offset) == end()`.  All `uint32_t` additions wrap
modulo `2^32`; the subtractions below cannot borrow in the branches where
the source performs them. -/
def update (m : ExtMap) (off : Int) (e : extent) : ExtMap :=
  match m.getLast? with
  | none => insertAssign [] off e
  | some (key, val) =>
    if off = key + (val.len : Int) ∧ e.offset = (val.offset + val.len) % 4294967296 then
      insertAssign m key ⟨val.objnum, val.offset, (val.len + e.len) % 4294967296⟩
    else
      let pre := m.takeWhile (fun p => decide (p.1 < off))
      let post := m.dropWhile (fun p => decide (p.1 < off))
      match post with
      | [] => insertAssign m off e
      | _ :: _ =>
        let bound := off + (e.len : Int)
        let survivors :=
          post.dropWhile (fun p => decide (off ≤ p.1 ∧ p.1 + (p.2.len : Int) ≤ bound))
        let m1 := pre ++ survivors
        let m2 :=
          match survivors with
          | [] => m1
          | (k1, v1) :: _ =>
            if k1 < bound then
              let d := (bound - k1).toNat
              insertAssign (eraseKeyE m1 k1) bound
                ⟨v1.objnum, (v1.offset + d) % 4294967296, v1.len - d⟩
            else m1
        let m3 :=
          match (m2.takeWhile (fun p => decide (p.1 < off))).getLast? with
          | none => m2
          | some (k0, v0) =>
            if k0 < off ∧ k0 + (v0.len : Int) > bound then
              let d := (bound - k0).toNat
              insertAssign
                (insertAssign m2 k0 ⟨v0.objnum, v0.offset, (off - k0).toNat⟩)
                bound ⟨v0.objnum, (v0.offset + d) % 4294967296, v0.len - d⟩
            else if k0 < off ∧ k0 + (v0.len : Int) > off then
              insertAssign m2 k0 ⟨v0.objnum, v0.offset, (off - k0).toNat⟩
            else m2
        insertAssign m3 off e

/-- `extmap::erase(offset)`. -/
def erase (m : ExtMap) (off : Int) : ExtMap := eraseKeyE m off

end extmap

/-- The non-overlap invariant I1 as the spec states it: for any two entries
`(k1, e1)` and `(k2, e2)` with `k1 < k2`, `k1 + e1.len ≤ k2`. -/
def nonOverlapP (m : ExtMap) : Prop :=
  ∀ p ∈ m, ∀ q ∈ m, p.1 < q.1 → p.1 + (p.2.len : Int) ≤ q.1

instance (m : ExtMap) : Decidable (nonOverlapP m) := by
  unfold nonOverlapP; infer_instance

/-! ## Inodes, directories and the global filesystem state -/

/-- `struct timespec` (seconds and nanoseconds, both 64-bit on the target). -/
structure timespec where
  sec : Int
  nsec : Int
deriving DecidableEq, Repr

/-- The payload of the concrete C++ class an inode was allocated as:
`fs_file` carries an extent map, `fs_directory` a name → inum map
(`std::map<std::string, uint32_t>`, names embedded as `List Char`),
`fs_link` a target byte string, plain `fs_obj` nothing. -/
inductive fsObjData where
  | file (extents : ExtMap)
  | dir (dirents : List (List Char × Nat))
  | symlink (target : List Char)
  | other
deriving DecidableEq, Repr

/-- `class fs_obj` common header.  `otype` is the `type` bit-field the code
dispatches on (`1` file, `2` dir, `3` symlink, `4` other); it is stored
separately from the allocation (`data`) exactly as in the source. -/
structure fsObj where
  otype : Nat
  inum : Nat
  mode : Nat
  uid : Nat
  gid : Nat
  rdev : Nat
  size : Int
  mtime : timespec
  data : fsObjData
deriving DecidableEq, Repr

/-- Generic lookup in an association list (`std::map::find` /
`std::unordered_map::find`). -/
def afind {κ α : Type} [BEq κ] (m : List (κ × α)) (k : κ) : Option α :=
  (m.find? (fun p => p.1 == k)).map (fun p => p.2)

/-- Generic insert-or-assign (`m[k] = v`). -/
def aset {κ α : Type} [BEq κ] : List (κ × α) → κ → α → List (κ × α)
  | [], k, v => [(k, v)]
  | (k1, v1) :: rest, k, v =>
    if k1 == k then (k, v) :: rest else (k1, v1) :: aset rest k v

/-- Generic erase by key (`m.erase(k)`). -/
def aerase {κ α : Type} [BEq κ] (m : List (κ × α)) (k : κ) : List (κ × α) :=
  m.filter (fun p => !(p.1 == k))

/-- The mount-wide mutable state of the filesystem: the inode table, the
inode allocator, the current in-flight object id, the dirty-inode set
(as inode numbers), and the two staging buffers.  Only the byte count of
the metadata buffer is tracked; the data buffer is kept as its bytes
because reads are served from it. -/
structure FS where
  inode_map : List (Nat × fsObj)
  next_inode : Nat
  this_index : Nat
  dirty : List Nat
  metaUsed : Nat
  metaCap : Nat
  dataCap : Nat
  dataLog : List Nat
deriving DecidableEq, Repr

/-- Replace (or install) the inode record stored under `i`. -/
def setInode (st : FS) (i : Nat) (o : fsObj) : FS :=
  { st with inode_map := aset st.inode_map i o }

/-- `dirty_inodes.insert` — a `std::set`, so inserting a present element is
a no-op. -/
def dinsert (l : List Nat) (i : Nat) : List Nat :=
  if l.contains i then l else l ++ [i]

/-- `S_IFMT`. -/
def S_IFMT : Nat := 61440
/-- `S_IFDIR`. -/
def S_IFDIR : Nat := 16384
/-- `S_IFREG`. -/
def S_IFREG : Nat := 32768
/-- `S_IFLNK`. -/
def S_IFLNK : Nat := 40960
/-- The constant `UTIME_NOW` (`(1 << 30) - 1`). -/
def UTIME_NOW : Int := 1073741823
/-- The constant `UTIME_OMIT` (`(1 << 30) - 2`). -/
def UTIME_OMIT : Int := 1073741822

/-! ## Path resolution -/

/-- `split(path, delimiter)` restricted to the `'/'` delimiter: cut the
character stream at every slash.  (Structural worker; empty components are
filtered by `splitPath`, as in the source.) -/
def splitSlash : List Char → List Char → List (List Char)
  | [], cur => [cur.reverse]
  | c :: rest, cur =>
    if c = '/' then cur.reverse :: splitSlash rest []
    else splitSlash rest (c :: cur)

/-- `split(path, '/')` with empty tokens discarded. -/
def splitPath (p : String) : List (List Char) :=
  (splitSlash p.data []).filter (fun s => !s.isEmpty)

/-- Worker for `vec_2_inum`: walk the component list starting at `inum`. -/
def vec_2_inum_go (st : FS) : Nat → List (List Char) → Int
  | inum, [] => (inum : Int)
  | inum, c :: rest =>
    match afind st.inode_map inum with
    | none => -2
    | some obj =>
      if obj.otype ≠ 2 then -20
      else
        match obj.data with
        | .dir dirents =>
          match afind dirents c with
          | none => -2
          | some child => vec_2_inum_go st child rest
        | _ => -20
-- the final `.dir` is the only arm reachable when `otype = 2`; the source
-- performs an unchecked cast there.

/-- `vec_2_inum`: returns the resolved inode number, `-ENOENT` (= `-2`) or
`-ENOTDIR` (= `-20`). -/
def vec_2_inum (st : FS) (v : List (List Char)) : Int :=
  vec_2_inum_go st 1 v

/-- `path_2_inum`. -/
def path_2_inum (st : FS) (path : String) : Int :=
  vec_2_inum st (splitPath path)

/-- `path_2_inum2`: inum of the whole path, inum of its parent, and the
leaf name.  (`pathvec.back()` on an empty vector is undefined in the
source; the model yields `[]` there.) -/
def path_2_inum2 (st : FS) (path : String) : Int × Int × List Char :=
  let pathvec := splitPath path
  let inum := vec_2_inum st pathvec
  let leaf := pathvec.getLastD []
  let parent_inum := vec_2_inum st pathvec.dropLast
  (inum, parent_inum, leaf)

/-! ## Staging buffers and flush -/

/-- `write_everything_out`: emit `LOG_INODE` records for the dirty set,
`PUT` the assembled object, then clear the dirty set, reset both staging
buffers and advance `this_index`.  The `PUT` itself is external; the model
records its effect on the tracked state for the success case (on failure
the source throws). -/
def write_everything_out (st : FS) : FS :=
  { st with dirty := [], metaUsed := 0, dataLog := [],
            this_index := st.this_index + 1 }

/-- `maybe_write`: flush only when a staging buffer has grown past its
capacity (strict `>` in the source). -/
def maybe_write (st : FS) : FS :=
  if st.metaUsed > st.metaCap ∨ st.dataLog.length > st.dataCap then
    write_everything_out st
  else st

/-! ## In-memory truncate -/

/-- The loop of `do_trunc`, with fuel.  Each round looks `new_size` up in
the extent map; a returned entry keyed below `new_size` is shortened with
the full `update` method, any other returned entry is erased; the loop
stops when `lookup` returns `end()`.  `ext.length + 3` rounds always
suffice for the executions the source performs (at most one shorten, which
can split off one tail entry, then erasures). -/
def do_trunc_go (ns : Int) : Nat → ExtMap → ExtMap
  | 0, ext => ext
  | fuel+1, ext =>
    match extmap.lookup ext ns with
    | none => ext
    | some (k, e) =>
      if k < ns then
        do_trunc_go ns fuel (extmap.update ext k ⟨e.objnum, e.offset, (ns - k).toNat⟩)
      else
        do_trunc_go ns fuel (extmap.erase ext k)

/-- `do_trunc` on the extent map alone. -/
def do_trunc (ext : ExtMap) (ns : Int) : ExtMap :=
  do_trunc_go ns (ext.length + 3) ext

/-- `do_trunc(f, new_size)` on the whole inode: trim the extent map and set
`f->size = new_size`. -/
def do_trunc_file (o : fsObj) (ext : ExtMap) (ns : Int) : fsObj :=
  { o with size := ns, data := .file (do_trunc ext ns) }

/-! ## Write path -/

/-- `create_node` (used by `fs_create` and `fs_mknod`): resolve, check the
parent, allocate `inum = next_inode++`, build an `fs_file` object (even for
the `other` variant), install it, add the directory entry, emit
`LOG_INODE` (38 bytes) and `LOG_CREATE` (11 + namelen bytes), mark the
parent dirty and maybe flush. -/
def create_node (st : FS) (path : String) (mode otype dev uid gid : Nat)
    (now : timespec) : Int × FS :=
  let r := path_2_inum2 st path
  let inum := r.1
  let parent_inum := r.2.1
  let leaf := r.2.2
  if inum ≥ 0 then (-17, st)
  else if parent_inum < 0 then (parent_inum, st)
  else
    match afind st.inode_map parent_inum.toNat with
    | none => (0, st)          -- unreachable: the parent resolved
    | some dirObj =>
      if dirObj.otype ≠ 2 then (-20, st)
      else
        match dirObj.data with
        | .dir dirents =>
          let ninum := st.next_inode
          let f : fsObj := ⟨otype, ninum, mode, uid, gid, dev, 0, now, .file []⟩
          let st1 := { st with next_inode := st.next_inode + 1,
                               inode_map := aset st.inode_map ninum f }
          let st2 := setInode st1 parent_inum.toNat
            { dirObj with data := .dir (aset dirents leaf ninum), mtime := now }
          let st3 := { st2 with
            metaUsed := st2.metaUsed + 38 + (11 + leaf.length),
            dirty := dinsert st2.dirty parent_inum.toNat }
          (0, maybe_write st3)
        | _ => (0, st)         -- unreachable when `otype = 2`

/-- `fs_create`: `create_node` with the regular-file bit OR-ed in. -/
def fs_create (st : FS) (path : String) (mode uid gid : Nat)
    (now : timespec) : Int × FS :=
  create_node st path (mode ||| S_IFREG) 1 0 uid gid now

/-- `fs_mkdir`: like `create_node` but allocating an `fs_directory` with an
empty entry map, mode OR-ed with `S_IFDIR`. -/
def fs_mkdir (st : FS) (path : String) (mode uid gid : Nat)
    (now : timespec) : Int × FS :=
  let r := path_2_inum2 st path
  let inum := r.1
  let parent_inum := r.2.1
  let leaf := r.2.2
  if inum ≥ 0 then (-17, st)
  else if parent_inum < 0 then (parent_inum, st)
  else
    match afind st.inode_map parent_inum.toNat with
    | none => (0, st)
    | some parent =>
      if parent.otype ≠ 2 then (-20, st)
      else
        match parent.data with
        | .dir dirents =>
          let ninum := st.next_inode
          let d : fsObj :=
            ⟨2, ninum, mode ||| S_IFDIR, uid, gid, 0, 0, now, .dir []⟩
          let st1 := { st with next_inode := st.next_inode + 1,
                               inode_map := aset st.inode_map ninum d }
          let st2 := setInode st1 parent_inum.toNat
            { parent with data := .dir (aset dirents leaf ninum), mtime := now }
          let st3 := { st2 with
            metaUsed := st2.metaUsed + 38 + (11 + leaf.length),
            dirty := dinsert st2.dirty parent_inum.toNat }
          (0, maybe_write st3)
        | _ => (0, st)

/-- `fs_write`: resolve the file, take `obj_offset = data_offset()`, append
a 30-byte `LOG_DATA` record and the payload, splice the extent
`(this_index, obj_offset, len)` in at `offset`, mark the inode dirty and
maybe flush.  (The source computes `new_size` for the log record but never
stores it into `f->size`.) -/
def fs_write (st : FS) (path : String) (buf : List Nat) (offset : Int) :
    Int × FS :=
  let inum := path_2_inum st path
  if inum < 0 then (inum, st)
  else
    match afind st.inode_map inum.toNat with
    | none => (0, st)          -- source dereferences a null entry here
    | some obj =>
      if obj.otype ≠ 1 then (-21, st)
      else
        match obj.data with
        | .file ext =>
          let obj_offset := st.dataLog.length
          let e : extent := ⟨st.this_index, obj_offset, buf.length⟩
          let st1 := { st with
            inode_map := aset st.inode_map inum.toNat
              { obj with data := .file (extmap.update ext offset e) },
            metaUsed := st.metaUsed + 30,
            dataLog := st.dataLog ++ buf,
            dirty := dinsert st.dirty inum.toNat }
          ((buf.length : Int), maybe_write st1)
        | _ => (0, st)         -- unreachable when `otype = 1`

/-! ## Read path -/

/-- `read_data(fs, buf, index, offset, len)`: when `index` is the in-flight
object, copy out of the staging data buffer, clamping `len` to
`data_offset() - offset`; otherwise issue a ranged `GET` against the
sealed object, abstracted by the external `store` capability
(object id, data offset, length ↦ bytes, `none` = failure). -/
def read_data (store : Nat → Nat → Nat → Option (List Nat)) (st : FS)
    (objnum offset n : Nat) : Option (List Nat) :=
  if objnum = st.this_index then
    some ((st.dataLog.drop offset).take (min n (st.dataLog.length - offset)))
  else
    store objnum offset n

/-- The iteration of `fs_read`: starting from the iterator produced by
`lookup(offset)`, for each entry either skip a hole (advancing the
destination without storing, modelled as `none` bytes) or copy from
`read_data`; stop when `bytes ≥ len` or at `end()`; a failed `read_data`
aborts with `-EIO`.  The source clamps the hole skip and the copy length
to `len` (not `len - bytes`), which the model mirrors. -/
def readLoop (store : Nat → Nat → Nat → Option (List Nat)) (st : FS)
    (len : Nat) : List (Int × extent) → Int → Nat → List (Option Nat) →
    Int × List (Option Nat)
  | [], _, bytes, acc => ((bytes : Int), acc)
  | (base, e) :: rest, offset, bytes, acc =>
    if len = 0 ∨ len ≤ bytes then ((bytes : Int), acc)
    else if base > offset then
      let skip := min (base - offset).toNat len
      readLoop store st len rest (offset + (skip : Int)) (bytes + skip)
        (acc ++ List.replicate skip none)
    else
      let skip := (offset - base).toNat
      let l2 := min (e.len - skip) len
      match read_data store st e.objnum (e.offset + skip) l2 with
      | none => (-5, acc)
      | some bs =>
        readLoop store st len rest (offset + (l2 : Int)) (bytes + l2)
          (acc ++ bs.map (fun b => some b) ++ List.replicate (l2 - bs.length) none)

/-- `fs_read(path, buf, len, offset)`: resolve, require a file (the source
answers `-ENOTDIR` otherwise), then run the extent-driven loop.  The
returned list is the destination buffer: `some b` for a byte written,
`none` for a position the loop skipped over. -/
def fs_read (store : Nat → Nat → Nat → Option (List Nat)) (st : FS)
    (path : String) (len : Nat) (offset : Int) : Int × List (Option Nat) :=
  let inum := path_2_inum st path
  if inum < 0 then (inum, [])
  else
    match afind st.inode_map inum.toNat with
    | none => (0, [])          -- source dereferences a null entry here
    | some obj =>
      if obj.otype ≠ 1 then (-20, [])
      else
        match obj.data with
        | .file ext => readLoop store st len (extmap.lookupIt ext offset) offset 0 []
        | _ => (0, [])         -- unreachable when `otype = 1`

/-! ## Rename, truncate, utimens -/

/-- `fs_rename(src, dst)`.  Translated exactly, including the source's
`dstdir = inode_map[src_parent]` (the destination directory object is
fetched with the SOURCE parent's inode number), so both the erase of the
source entry and the insert of the destination entry act on the source
parent.  Emits a `LOG_RENAME` record of `16 + n1 + n2` bytes. -/
def fs_rename (st : FS) (src dst : String) (now : timespec) : Int × FS :=
  let rs := path_2_inum2 st src
  let src_inum := rs.1
  let src_parent := rs.2.1
  let src_leaf := rs.2.2
  if src_inum < 0 then (src_inum, st)
  else
    let rd := path_2_inum2 st dst
    let dst_inum := rd.1
    let dst_parent := rd.2.1
    let dst_leaf := rd.2.2
    if dst_inum ≥ 0 then (-17, st)
    else if dst_parent < 0 then (dst_parent, st)
    else
      match afind st.inode_map src_parent.toNat with
      | none => (0, st)
      | some dstdir0 =>
        if dstdir0.otype ≠ 2 then (-20, st)
        else
          match dstdir0.data with
          | .dir sdirents =>
            let st1 := setInode st src_parent.toNat
              { dstdir0 with data := .dir (aerase sdirents src_leaf), mtime := now }
            let st2 :=
              match afind st1.inode_map src_parent.toNat with
              | some d2 =>
                match d2.data with
                | .dir dd => setInode st1 src_parent.toNat
                    { d2 with data := .dir (aset dd dst_leaf src_inum.toNat),
                              mtime := now }
                | _ => st1
              | none => st1
            let st3 := { st2 with
              dirty := dinsert st2.dirty src_parent.toNat,
              metaUsed := st2.metaUsed + (16 + src_leaf.length + dst_leaf.length) }
            (0, maybe_write st3)
          | _ => (0, st)

/-- `fs_truncate(path, len)`: file-only; `do_trunc` plus a 14-byte
`LOG_TRUNC` record, mtime, dirty mark and maybe-flush. -/
def fs_truncate (st : FS) (path : String) (len : Int) (now : timespec) :
    Int × FS :=
  let inum := path_2_inum st path
  if inum < 0 then (inum, st)
  else
    match afind st.inode_map inum.toNat with
    | none => (0, st)
    | some f =>
      if f.otype = 2 then (-21, st)
      else if f.otype ≠ 1 then (-22, st)
      else
        match f.data with
        | .file ext =>
          let st1 := setInode st inum.toNat
            { do_trunc_file f ext len with mtime := now }
          let st2 := { st1 with metaUsed := st1.metaUsed + 14,
                                dirty := dinsert st1.dirty inum.toNat }
          (0, maybe_write st2)
        | _ => (0, st)

/-- `fs_utimens(path, tv)`: with `tv == NULL` or `tv[1].tv_nsec ==
UTIME_NOW` the mtime becomes the current clock time; otherwise `tv[1]` is
stored unless its nanosecond field is `UTIME_OMIT`.  The inode is marked
dirty in every case and the call returns 0. -/
def fs_utimens (st : FS) (path : String) (tv : Option (timespec × timespec))
    (now : timespec) : Int × FS :=
  let inum := path_2_inum st path
  if inum < 0 then (inum, st)
  else
    match afind st.inode_map inum.toNat with
    | none => (0, st)          -- source dereferences a null entry here
    | some obj =>
      let obj' :=
        match tv with
        | none => { obj with mtime := now }
        | some tvp =>
          if tvp.2.nsec = UTIME_NOW then { obj with mtime := now }
          else if tvp.2.nsec ≠ UTIME_OMIT then { obj with mtime := tvp.2 }
          else obj
      let st1 := { setInode st inum.toNat obj' with
                   dirty := dinsert st.dirty inum.toNat }
      (0, maybe_write st1)

/-! ## Symlink and readlink -/

/-- `fs_symlink(path, contents)`.  Translated exactly: the source never
uses `contents`; the link's target is set to the path's leaf name, and the
new object is installed in the inode table under the STALE `inum` returned
by path resolution — a negative errno, converted to `uint32_t` by the map
key (`inum mod 2^32`) — while the directory entry receives the freshly
allocated inode number.  Emits `LOG_INODE` (38), `LOG_SYMLNK`
(7 + targetlen) and `LOG_CREATE` (11 + namelen) records.  (`size` and
`rdev` are left uninitialized by the source; the model uses 0.) -/
def fs_symlink (st : FS) (path : String) (contents : List Char)
    (uid gid : Nat) (now : timespec) : Int × FS :=
  let r := path_2_inum2 st path
  let inum := r.1
  let parent_inum := r.2.1
  let leaf := r.2.2
  if inum ≥ 0 then (-17, st)
  else if parent_inum < 0 then (parent_inum, st)
  else
    match afind st.inode_map parent_inum.toNat with
    | none => (0, st)
    | some dirObj =>
      if dirObj.otype ≠ 2 then (-20, st)
      else
        match dirObj.data with
        | .dir dirents =>
          let linum := st.next_inode
          let l : fsObj :=
            ⟨3, linum, S_IFLNK ||| 511, uid, gid, 0, 0, now, .symlink leaf⟩
          let staleKey := (inum % 4294967296).toNat
          let st1 := { st with next_inode := st.next_inode + 1,
                               inode_map := aset st.inode_map staleKey l }
          let st2 := setInode st1 parent_inum.toNat
            { dirObj with data := .dir (aset dirents leaf linum), mtime := now }
          let st3 := { st2 with
            metaUsed := st2.metaUsed + 38 + (7 + leaf.length) + (11 + leaf.length),
            dirty := dinsert st2.dirty parent_inum.toNat }
          (0, maybe_write st3)
        | _ => (0, st)

/-- `fs_readlink(path, buf, len)`: resolve; a non-symlink inode yields
`-EINVAL` with nothing written; a symlink yields
`min(len, target.length())` bytes of the target (no NUL terminator) and
that count as the return value. -/
def fs_readlink (st : FS) (path : String) (len : Nat) : Int × List Char :=
  let inum := path_2_inum st path
  if inum < 0 then (inum, [])
  else
    match afind st.inode_map inum.toNat with
    | none => (0, [])          -- source dereferences a null entry here
    | some l =>
      if l.otype ≠ 3 then (-22, [])
      else
        match l.data with
        | .symlink target =>
          ((min len target.length : Nat), target.take (min len target.length))
        | _ => (0, [])         -- unreachable when `otype = 3`

/-! ## Log records and the replay engine

The byte-level codec is abstracted to parsed records; replay is the
left-to-right application the `read_hdr` loop performs, where a negative
return from any `read_log_*` handler aborts the object with bad-format
(`none`). -/

/-- The eight log-record kinds of `enum log_rec_type`, with their decoded
payloads. -/
inductive LogRec where
  | inode (inum mode uid gid rdev : Nat) (mtime : timespec)
  | trunc (inum : Nat) (new_size : Int)
  | del (parent inum : Nat) (name : List Char)
  | symlnk (inum : Nat) (target : List Char)
  | rename (inum parent1 parent2 : Nat) (name1 name2 : List Char)
  | data (inum obj_offset : Nat) (file_offset size : Int) (len : Nat)
  | create (parent inum : Nat) (name : List Char)
  | null
deriving DecidableEq, Repr

/-- `read_log_inode`: overwrite the mutable header fields of an existing
inode, or create a fresh one whose variant follows the mode bits, with
size initialized to 0.  Never fails. -/
def read_log_inode (st : FS) (inum mode uid gid rdev : Nat)
    (mt : timespec) : Option FS :=
  match afind st.inode_map inum with
  | some obj =>
    some (setInode st inum
      { obj with inum := inum, mode := mode, uid := uid, gid := gid,
                 rdev := rdev, mtime := mt })
  | none =>
    let arm : Nat × fsObjData :=
      if mode &&& S_IFMT = S_IFDIR then (2, .dir [])
      else if mode &&& S_IFMT = S_IFREG then (1, .file [])
      else if mode &&& S_IFMT = S_IFLNK then (3, .symlink [])
      else (4, .other)
    some { st with inode_map := aset st.inode_map inum
                     ⟨arm.1, inum, mode, uid, gid, rdev, 0, mt, arm.2⟩ }

/-- `read_log_trunc`: fail when the inode is missing or when
`f->size < new_size`; otherwise `do_trunc(f, new_size)`.  (The source
casts to `fs_file` unchecked; a non-file target is undefined behaviour
there and is modelled as failure.) -/
def read_log_trunc (st : FS) (inum : Nat) (ns : Int) : Option FS :=
  match afind st.inode_map inum with
  | none => none
  | some obj =>
    if obj.size < ns then none
    else
      match obj.data with
      | .file ext => some (setInode st inum (do_trunc_file obj ext ns))
      | _ => none

/-- `read_log_delete`: both inodes must exist; remove the inode and the
directory entry. -/
def read_log_delete (st : FS) (parent inum : Nat) (name : List Char) :
    Option FS :=
  match afind st.inode_map parent with
  | none => none
  | some p =>
    match afind st.inode_map inum with
    | none => none
    | some _ =>
      match p.data with
      | .dir dd =>
        some { st with inode_map := aset (aerase st.inode_map inum) parent
                         { p with data := .dir (aerase dd name) } }
      | _ => none

/-- `read_log_symlink`: the inode must already exist; store the target.
(Unchecked cast to `fs_link` in the source.) -/
def read_log_symlink (st : FS) (inum : Nat) (target : List Char) :
    Option FS :=
  match afind st.inode_map inum with
  | none => none
  | some l =>
    match l.data with
    | .symlink _ => some (setInode st inum { l with data := .symlink target })
    | _ => none

/-- `read_log_rename`: both parents must exist, `parent1` must map `name1`
to `inum`; then move the entry.  (The source's absence test for `name2`
compares `parent2`'s iterator against `parent1`'s `end()`, which is
undefined; the model performs the intended membership test.) -/
def read_log_rename (st : FS) (inum parent1 parent2 : Nat)
    (name1 name2 : List Char) : Option FS :=
  match afind st.inode_map parent1 with
  | none => none
  | some p1 =>
    match afind st.inode_map parent2 with
    | none => none
    | some _ =>
      match p1.data with
      | .dir d1 =>
        match afind d1 name1 with
        | none => none
        | some i1 =>
          if i1 ≠ inum then none
          else
            let st1 := setInode st parent1 { p1 with data := .dir (aerase d1 name1) }
            match afind st1.inode_map parent2 with
            | some p2 =>
              match p2.data with
              | .dir d2 =>
                if (afind d2 name2).isSome then none
                else some (setInode st1 parent2
                  { p2 with data := .dir (aset d2 name2 inum) })
              | _ => none
            | none => none
      | _ => none

/-- `read_log_data(idx, d)`: insert the extent `(idx, obj_offset, len)` at
`file_offset` and set the file size.  (Unchecked cast to `fs_file` in the
source.) -/
def read_log_data (idx : Nat) (st : FS) (inum obj_offset : Nat)
    (file_offset sz : Int) (len : Nat) : Option FS :=
  match afind st.inode_map inum with
  | none => none
  | some obj =>
    match obj.data with
    | .file ext =>
      some (setInode st inum
        { obj with size := sz,
                   data := .file (extmap.update ext file_offset
                     ⟨idx, obj_offset, len⟩) })
    | _ => none

/-- `read_log_create`: add the entry to the parent directory and advance
the allocator to `max(next_inode, inum + 1)`. -/
def read_log_create (st : FS) (parent inum : Nat) (name : List Char) :
    Option FS :=
  match afind st.inode_map parent with
  | none => none
  | some p =>
    match p.data with
    | .dir dd =>
      some { setInode st parent { p with data := .dir (aset dd name inum) } with
             next_inode := max st.next_inode (inum + 1) }
    | _ => none

/-- One step of the `read_hdr` dispatch. -/
def apply_record (idx : Nat) (st : FS) : LogRec → Option FS
  | .inode i m u g r t => read_log_inode st i m u g r t
  | .trunc i ns => read_log_trunc st i ns
  | .del p i n => read_log_delete st p i n
  | .symlnk i t => read_log_symlink st i t
  | .rename i p1 p2 n1 n2 => read_log_rename st i p1 p2 n1 n2
  | .data i o fo sz l => read_log_data idx st i o fo sz l
  | .create p i n => read_log_create st p i n
  | .null => some st

/-- The record loop of `read_hdr` for the object with id `idx`: apply each
record left to right; the first failing handler aborts the whole object
with bad-format (`none`). -/
def read_hdr (idx : Nat) (st : FS) : List LogRec → Option FS
  | [] => some st
  | r :: rest =>
    match apply_record idx st r with
    | none => none
    | some st1 => read_hdr idx st1 rest

/-! ## Initial state -/

/-- The root directory inode (inum 1, `S_IFDIR | 0744`), as `fs_mkfs`
builds it. -/
def rootDir : fsObj :=
  ⟨2, 1, S_IFDIR ||| 484, 0, 0, 0, 0, ⟨0, 0⟩, .dir []⟩

/-- The state of a freshly made filesystem after mount: only the root
inode; allocator at 2; in-flight object 0; staging buffers empty with the
capacities `fs_init` allocates (64 KiB metadata, 16 MiB data). -/
def initFS : FS :=
  ⟨[(1, rootDir)], 2, 0, [], 0, 65536, 16777216, []⟩

/-! ## Scenario states and auxiliary predicates -/

/-- The extent map of the file stored under inode `i`, when it is one. -/
def fileExtents (st : FS) (i : Nat) : Option ExtMap :=
  (afind st.inode_map i).bind fun o =>
    match o.data with
    | .file e => some e
    | _ => none

/-- Size dominance (spec invariant I2) for an extent map against a size:
every extent ends at or before `size`. -/
def sizeDominance (ext : ExtMap) (size : Int) : Prop :=
  ∀ p ∈ ext, p.1 + (p.2.len : Int) ≤ size

instance (ext : ExtMap) (size : Int) : Decidable (sizeDominance ext size) := by
  unfold sizeDominance; infer_instance

/-- State of scenario "Overwrite splices": a fresh filesystem after
`create("/a")`, `write("/a", "AAAAAAAA", 8, 0)` and
`write("/a", "bb", 2, 3)`. -/
def c1_state : FS :=
  (fs_write
    (fs_write (fs_create initFS ("/a") 420 0 0 ⟨0, 0⟩).2
      ("/a") (List.replicate 8 65) 0).2
    ("/a") [98, 98] 3).2

/-- State of scenario "Rename across directories": `mkdir("/d1")`,
`mkdir("/d2")`, `create("/d1/x")`, `rename("/d1/x", "/d2/y")`. -/
def c5_state : FS :=
  (fs_rename
    (fs_create
      (fs_mkdir (fs_mkdir initFS ("/d1") 493 0 0 ⟨0, 0⟩).2
        ("/d2") 493 0 0 ⟨0, 0⟩).2
      ("/d1/x") 420 0 0 ⟨0, 0⟩).2
    ("/d1/x") ("/d2/y") ⟨0, 0⟩).2

/-- Result of `symlink("/s", "hello")` on a fresh filesystem. -/
def c6_result : Int × FS :=
  fs_symlink initFS ("/s") (String.data ("hello")) 0 0 ⟨0, 0⟩

/-- A regular-file inode of size 10 with a single extent `[0, 10)`,
for the truncate scenarios. -/
def c4_file : fsObj :=
  ⟨1, 2, 33188, 0, 0, 0, 10, ⟨0, 0⟩, .file [(0, ⟨1, 0, 10⟩)]⟩

/-- A regular-file inode of size 10 with an empty extent map, target of
the replay TRUNC witness. -/
def c8_file : fsObj :=
  ⟨1, 2, 33188, 0, 0, 0, 10, ⟨0, 0⟩, .file []⟩

/-- A mounted state containing `c8_file` under inode 2. -/
def c8_st : FS :=
  ⟨[(1, rootDir), (2, c8_file)], 3, 0, [], 0, 65536, 16777216, []⟩

/-- A symlink inode with target `"abc"`. -/
def c10_link : fsObj :=
  ⟨3, 2, 41471, 0, 0, 0, 0, ⟨0, 0⟩, .symlink ('a' :: 'b' :: 'c' :: [])⟩

/-- A root directory holding the entry `s ↦ 2`. -/
def c10_root : fsObj :=
  ⟨2, 1, S_IFDIR ||| 484, 0, 0, 0, 0, ⟨0, 0⟩, .dir [('s' :: [], 2)]⟩

/-- A mounted state with the symlink `/s` installed consistently. -/
def c10_st : FS :=
  ⟨[(1, c10_root), (2, c10_link)], 3, 0, [], 0, 65536, 16777216, []⟩

/-! ## Helper lemmas -/

theorem afind_aset_self {κ α : Type} [BEq κ] [LawfulBEq κ]
    (m : List (κ × α)) (k : κ) (v : α) : afind (aset m k v) k = some v := by
  induction m with
  | nil => simp [afind, aset]
  | cons h t ih =>
    obtain ⟨k1, v1⟩ := h
    by_cases hk : k1 == k
    · simp [aset, hk, afind]
    · simp only [aset, hk, if_neg]
      simpa [afind, List.find?, hk] using ih

theorem mem_dinsert (l : List Nat) (i : Nat) : i ∈ dinsert l i := by
  unfold dinsert
  by_cases h : l.contains i = true
  · rw [if_pos h]
    exact List.mem_of_elem_eq_true h
  · rw [if_neg h]
    exact List.mem_append_right _ (List.mem_singleton_self i)

/-! ## The claims -/

/-- C1: after `write("/a", "AAAAAAAA", 8, 0)` then `write("/a", "bb", 2, 3)`
on a freshly created `/a`, the claim expects extent entries at offsets 0
and 5 and `read("/a", 8, 0) = "AAAbbAAA"`.  The code instead leaves the
entries at offsets 0 (length 8) and 3 — the first still covering the
overwritten range, the two overlapping — and the read returns the original
eight `A` bytes untouched, because `extmap::update` inserts without
trimming the predecessor when `lower_bound(offset)` is `end()`. -/
theorem c1_overwrite_splice_behavior :
    fileExtents c1_state 2 = some [(0, ⟨0, 0, 8⟩), (3, ⟨0, 8, 2⟩)] ∧
    fs_read (fun _ _ _ => none) c1_state ("/a") 8 0 =
      (8, List.replicate 8 (some 65)) ∧
    ¬ nonOverlapP [(0, ⟨0, 0, 8⟩), (3, ⟨0, 8, 2⟩)] := by
  refine ⟨by decide, by decide, by decide⟩

/-- C2: the non-overlap invariant is claimed to hold after every `update`
and `erase`.  Updating the one-entry map `0 ↦ [0, 10)` at offset 5 with a
length-3 extent leaves both the untrimmed predecessor and the new entry,
which overlap: `update` returns early without the left-overlap logic when
`lower_bound(offset)` is `end()`. -/
theorem c2_nonoverlap_violation :
    extmap.update [(0, ⟨1, 0, 10⟩)] 5 ⟨1, 10, 3⟩ =
      [(0, ⟨1, 0, 10⟩), (5, ⟨1, 10, 3⟩)] ∧
    ¬ nonOverlapP (extmap.update [(0, ⟨1, 0, 10⟩)] 5 ⟨1, 10, 3⟩) := by
  refine ⟨by decide, by decide⟩

/-- C3: `lookup(offset)` is claimed (also by the comment above the source
function) to return the entry whose interval contains `offset` when one
exists.  On the map `0 ↦ [0, 10)` the entry contains offset 5, yet
`lookup` returns `end()`, because the source returns as soon as
`lower_bound(offset)` is `end()`, before the predecessor check. -/
theorem c3_lookup_misses_containing_extent :
    extmap.lookup [(0, ⟨1, 0, 10⟩)] 5 = none ∧
    (∃ p ∈ ([(0, ⟨1, 0, 10⟩)] : ExtMap), p.1 ≤ 5 ∧ (5 : Int) < p.1 + p.2.len) := by
  refine ⟨by decide, by decide⟩

/-- C4: in-memory truncate of a size-10 file with the single extent
`[0, 10)` down to 5 is claimed to leave every surviving extent inside
`[0, 5)`.  The loop exits immediately — `lookup(5)` returns `end()`
(see C3) — so the full extent survives, the size becomes 5, and size
dominance fails. -/
theorem c4_truncate_leaves_long_extent :
    do_trunc_file c4_file [(0, ⟨1, 0, 10⟩)] 5 =
      ⟨1, 2, 33188, 0, 0, 0, 5, ⟨0, 0⟩, .file [(0, ⟨1, 0, 10⟩)]⟩ ∧
    ¬ sizeDominance (do_trunc [(0, ⟨1, 0, 10⟩)] 5) 5 := by
  refine ⟨by decide, by decide⟩

/-- C5: after `mkdir("/d1")`, `mkdir("/d2")`, `create("/d1/x")` (inode 4)
and `rename("/d1/x", "/d2/y")`, the claim expects `/d2/y` to resolve to
inode 4.  The code fetches the destination directory from
`inode_map[src_parent]`, so the new entry lands in `/d1`: `/d2/y` is
`-ENOENT` while `/d1/y` resolves to 4. -/
theorem c5_rename_wrong_parent :
    path_2_inum c5_state ("/d1/x") = -2 ∧
    path_2_inum c5_state ("/d2/y") = -2 ∧
    path_2_inum c5_state ("/d1/y") = 4 := by
  refine ⟨by decide, by decide, by decide⟩

/-- C6: `symlink("/s", "hello")` is claimed to install the new inode under
its allocated inum (2) with target `"hello"`.  The call returns 0, but the
inode table has no entry at 2 — the object is installed under the stale
negative resolution result cast to `uint32_t`, `2^32 - 2` — and the stored
target is the path leaf `"s"`, not the second argument; `readlink("/s")`
therefore cannot return `"hello"`. -/
theorem c6_symlink_stale_inum_and_leaf_target :
    c6_result.1 = 0 ∧
    afind c6_result.2.inode_map 2 = none ∧
    (afind c6_result.2.inode_map 4294967294).map fsObj.data =
      some (.symlink ('s' :: [])) ∧
    fs_readlink c6_result.2 ("/s") 100 ≠ (5, String.data ("hello")) := by
  refine ⟨by decide, by decide, by decide, by decide⟩

/-- C7: the tail-append fast path is claimed to require the same object id
on both extents.  With the last entry `(0, obj 1, off 4, len 4)` and a new
extent `(obj 2, off 8, len 4)` at offset 4, both offset conditions hold
but the object ids differ — and the source still merges, extending the
old entry to length 8 under object 1 and discarding object 2. -/
theorem c7_fastpath_ignores_object_id :
    extmap.update [(0, ⟨1, 4, 4⟩)] 4 ⟨2, 8, 4⟩ = [(0, ⟨1, 4, 8⟩)] := by
  decide

/-- C8: during replay, a `TRUNC` record whose `new_size` exceeds the target
file's current size makes its handler fail, which aborts the whole object
with bad-format; otherwise the record's effect is exactly the in-memory
truncate `do_trunc` (the very function the write path uses) and replay
continues with the remaining records. -/
theorem read_hdr_trunc_step (idx : Nat) (st : FS) (inum : Nat) (ns : Int)
    (rest : List LogRec) (obj : fsObj) (ext : ExtMap)
    (hobj : afind st.inode_map inum = some obj)
    (harm : obj.data = .file ext) :
    read_hdr idx st (.trunc inum ns :: rest) =
      if obj.size < ns then none
      else read_hdr idx (setInode st inum (do_trunc_file obj ext ns)) rest := by
  have h1 : apply_record idx st (.trunc inum ns) =
      if obj.size < ns then none
      else some (setInode st inum (do_trunc_file obj ext ns)) := by
    simp [apply_record, read_log_trunc, hobj, harm]
  by_cases hs : obj.size < ns
  · simp [read_hdr, h1, hs]
  · simp [read_hdr, h1, hs]

theorem read_hdr_trunc_step_witness :
    read_hdr 0 c8_st [LogRec.trunc 2 20] =
      if c8_file.size < 20 then none
      else read_hdr 0 (setInode c8_st 2 (do_trunc_file c8_file [] 20)) [] :=
  read_hdr_trunc_step 0 c8_st 2 20 [] c8_file [] rfl rfl

/-- C9: for a path resolving to an existing inode (and staging buffers
under their caps, so no flush fires), `utimens(path, NULL)` sets the
inode's mtime to the current clock time, marks the inode dirty, returns 0,
and behaves exactly as a call whose `tv[1].tv_nsec` is `UTIME_NOW`. -/
theorem fs_utimens_null_sets_now (st : FS) (path : String) (now : timespec)
    (inum : Nat) (obj : fsObj)
    (hres : path_2_inum st path = (inum : Int))
    (hobj : afind st.inode_map inum = some obj)
    (hm : st.metaUsed ≤ st.metaCap)
    (hd : st.dataLog.length ≤ st.dataCap) :
    fs_utimens st path none now =
      (0, { setInode st inum { obj with mtime := now } with
            dirty := dinsert st.dirty inum }) ∧
    inum ∈ (fs_utimens st path none now).2.dirty ∧
    (afind (fs_utimens st path none now).2.inode_map inum).map fsObj.mtime =
      some now ∧
    (∀ t0 : timespec, ∀ s : Int,
      fs_utimens st path (some (t0, ⟨s, UTIME_NOW⟩)) now =
        fs_utimens st path none now) := by
  have h0 : ¬ ((inum : Int) < 0) := Int.not_lt.mpr (Int.natCast_nonneg inum)
  have hnoflush : ∀ st1 : FS, st1.metaUsed = st.metaUsed →
      st1.dataLog = st.dataLog → st1.metaCap = st.metaCap →
      st1.dataCap = st.dataCap → maybe_write st1 = st1 := by
    intro st1 e1 e2 e3 e4
    unfold maybe_write
    rw [if_neg]
    rw [e1, e2, e3, e4]
    omega
  have hmain : fs_utimens st path none now =
      (0, { setInode st inum { obj with mtime := now } with
            dirty := dinsert st.dirty inum }) := by
    unfold fs_utimens
    rw [hres]
    simp only [if_neg h0, Int.toNat_natCast, hobj]
    exact congrArg (Prod.mk 0) (hnoflush _ rfl rfl rfl rfl)
  refine ⟨hmain, ?_, ?_, ?_⟩
  · rw [hmain]
    exact mem_dinsert st.dirty inum
  · rw [hmain]
    show (afind (aset st.inode_map inum { obj with mtime := now }) inum).map
      fsObj.mtime = some now
    rw [afind_aset_self]
    rfl
  · intro t0 s
    unfold fs_utimens
    rw [hres]
    simp only [if_neg h0, Int.toNat_natCast, hobj]
    simp [UTIME_NOW]

theorem fs_utimens_null_sets_now_witness :
    fs_utimens initFS ("/") none ⟨5, 7⟩ =
      (0, { setInode initFS 1 { rootDir with mtime := ⟨5, 7⟩ } with
            dirty := dinsert initFS.dirty 1 }) :=
  (fs_utimens_null_sets_now initFS ("/") ⟨5, 7⟩ 1 rootDir (by decide) rfl
    (by decide) (by decide)).1

/-- C10: for a path resolving to an existing inode, `readlink` on a symlink
copies exactly `min(len, target.length)` bytes of the target — the prefix
of the target, no NUL terminator — and returns that count (silently
truncating when `len` is smaller); on an existing non-symlink inode it
returns `-EINVAL` and writes nothing. -/
theorem fs_readlink_spec (st : FS) (path : String) (len : Nat)
    (inum : Nat) (obj : fsObj)
    (hres : path_2_inum st path = (inum : Int))
    (hobj : afind st.inode_map inum = some obj) :
    (∀ target : List Char, obj.otype = 3 → obj.data = .symlink target →
      fs_readlink st path len =
        (((min len target.length : Nat) : Int),
          target.take (min len target.length))) ∧
    (obj.otype ≠ 3 → fs_readlink st path len = (-22, [])) := by
  have h0 : ¬ ((inum : Int) < 0) := Int.not_lt.mpr (Int.natCast_nonneg inum)
  constructor
  · intro target hty harm
    unfold fs_readlink
    rw [hres, if_neg h0, Int.toNat_natCast, hobj]
    simp [hty, harm]
  · intro hty
    unfold fs_readlink
    rw [hres, if_neg h0, Int.toNat_natCast, hobj]
    simp [hty]

theorem fs_readlink_spec_witness :
    fs_readlink c10_st ("/s") 2 =
      (((min 2 ('a' :: 'b' :: 'c' :: []).length : Nat) : Int),
        ('a' :: 'b' :: 'c' :: []).take (min 2 ('a' :: 'b' :: 'c' :: []).length)) :=
  (fs_readlink_spec c10_st ("/s") 2 2 c10_link (by decide) rfl).1
    ('a' :: 'b' :: 'c' :: []) rfl rfl
